import Mathlib

/-!
Shallow embedding of the BSP destructible-geometry engine
(`src/engine/bsp.py`, `src/engine/destruction.py`).

Floating-point arithmetic is idealized as real arithmetic.  Python's
unbounded recursion in `BSPNode.build` is modelled by an explicit fuel
parameter: a result of `none` means the recursion never bottoms out
(in Python, a stack overflow / `RecursionError`), while `some t` means
the build terminates with tree `t` given enough stack.
-/

noncomputable section
open Classical

structure Vec3 where
  x : ℝ
  y : ℝ
  z : ℝ

def Vec3.add (a b : Vec3) : Vec3 := ⟨a.x + b.x, a.y + b.y, a.z + b.z⟩

def Vec3.sub (a b : Vec3) : Vec3 := ⟨a.x - b.x, a.y - b.y, a.z - b.z⟩

def Vec3.smul (a : Vec3) (s : ℝ) : Vec3 := ⟨a.x * s, a.y * s, a.z * s⟩

def Vec3.dot (a b : Vec3) : ℝ := a.x * b.x + a.y * b.y + a.z * b.z

def Vec3.cross (a b : Vec3) : Vec3 :=
  ⟨a.y * b.z - a.z * b.y, a.z * b.x - a.x * b.z, a.x * b.y - a.y * b.x⟩

def Vec3.length (a : Vec3) : ℝ := Real.sqrt (a.dot a)

def Vec3.normalize (a : Vec3) : Vec3 :=
  if a.length = 0 then ⟨0, 0, 0⟩ else a.smul (1 / a.length)

structure Plane where
  normal : Vec3
  d : ℝ

def Plane.from_points (a b c : Vec3) : Plane :=
  let ab := b.sub a
  let ac := c.sub a
  let n := (ab.cross ac).normalize
  ⟨n, n.dot a⟩

/-- `classify_point` in the source takes an `eps` default argument that it
never uses; the returned value is always `normal · p - d`. -/
def Plane.classify_point (pl : Plane) (p : Vec3) : ℝ := pl.normal.dot p - pl.d

structure Polygon where
  vertices : List Vec3
  plane : Plane

/-- `Polygon.from_vertices`: fails (Python `ValueError`, the spec's
InvalidGeometry) exactly when fewer than 3 vertices are given; otherwise
derives the plane from the first three vertices. -/
def Polygon.from_vertices (verts : List Vec3) : Except String Polygon :=
  match verts with
  | a :: b :: c :: _ => .ok ⟨verts, Plane.from_points a b c⟩
  | _ => .error "Polygon needs at least 3 vertices"

def Polygon.centroid (p : Polygon) : Vec3 :=
  ⟨(p.vertices.map Vec3.x).sum / (p.vertices.length : ℝ),
   (p.vertices.map Vec3.y).sum / (p.vertices.length : ℝ),
   (p.vertices.map Vec3.z).sum / (p.vertices.length : ℝ)⟩

/-- The hard-coded epsilon used in `BSPNode.build`'s coplanarity test. -/
def eps : ℝ := 1e-5

inductive BSPNode : Type where
  | mk (plane : Option Plane) (front : Option BSPNode) (back : Option BSPNode)
      (polygons : List Polygon)

def BSPNode.plane : BSPNode → Option Plane
  | .mk pl _ _ _ => pl

def BSPNode.front : BSPNode → Option BSPNode
  | .mk _ f _ _ => f

def BSPNode.back : BSPNode → Option BSPNode
  | .mk _ _ b _ => b

def BSPNode.polygons : BSPNode → List Polygon
  | .mk _ _ _ polys => polys

/-- A freshly constructed `BSPNode()` before any `build` call. -/
def BSPNode.empty : BSPNode := .mk none none none []

/-- The classification loop inside `BSPNode.build`: splits the input into
the (coplanar, front, back) lists, preserving relative order. -/
def partitionPolys (pl : Plane) : List Polygon → List Polygon × List Polygon × List Polygon
  | [] => ([], [], [])
  | p :: rest =>
    let r := partitionPolys pl rest
    if |pl.classify_point p.centroid| ≤ eps then (p :: r.1, r.2.1, r.2.2)
    else if 0 < pl.classify_point p.centroid then (r.1, p :: r.2.1, r.2.2)
    else (r.1, r.2.1, p :: r.2.2)

/-- `BSPNode.build`, with the Python mutation made functional.  The fuel
counts recursion depth; `none` models a build that never returns. -/
def BSPNode.build : Nat → BSPNode → List Polygon → Option BSPNode
  | _, node, [] => some node
  | 0, _, _ :: _ => none
  | fuel + 1, node, p0 :: rest =>
    let pl := node.plane.getD p0.plane
    let parts := partitionPolys pl (p0 :: rest)
    let fres : Option (Option BSPNode) :=
      if parts.2.1 = [] then some node.front
      else (BSPNode.build fuel (node.front.getD BSPNode.empty) parts.2.1).map some
    let bres : Option (Option BSPNode) :=
      if parts.2.2 = [] then some node.back
      else (BSPNode.build fuel (node.back.getD BSPNode.empty) parts.2.2).map some
    match fres, bres with
    | some f, some b => some (.mk (some pl) f b (node.polygons ++ parts.1))
    | _, _ => none

/-- Depth-first traversal: node's own polygons, then front, then back. -/
def BSPNode.all_polygons : BSPNode → List Polygon
  | .mk _ f b polys =>
    polys ++ (match f with | none => [] | some c => c.all_polygons)
          ++ (match b with | none => [] | some c => c.all_polygons)

structure BSPTree where
  root : BSPNode

/-- `BSPTree(polygons)`: build a fresh root from the input list. -/
def BSPTree.make (fuel : Nat) (polygons : List Polygon) : Option BSPTree :=
  (BSPNode.build fuel BSPNode.empty polygons).map BSPTree.mk

def BSPTree.all_polygons (t : BSPTree) : List Polygon := t.root.all_polygons

def distance (a b : Vec3) : ℝ :=
  Real.sqrt ((a.x - b.x) ^ 2 + (a.y - b.y) ^ 2 + (a.z - b.z) ^ 2)

/-- `apply_explosion`: keep the polygons of the old tree whose centroid is
strictly farther than `radius` from `position`, and build a brand-new tree
from the survivors. -/
def apply_explosion (fuel : Nat) (tree : BSPTree) (position : Vec3) (radius : ℝ) :
    Option BSPTree :=
  BSPTree.make fuel
    (tree.all_polygons.filter (fun p => decide (radius < distance p.centroid position)))

/-- The 8 cube corners and 6 faces of `make_cube`; face polygons are built
through `Polygon.from_vertices` exactly as the source does. -/
def make_cube (center : Vec3) (size : ℝ) : Except String (List Polygon) :=
  let s := size / 2
  let p0 : Vec3 := ⟨center.x - s, center.y - s, center.z - s⟩
  let p1 : Vec3 := ⟨center.x + s, center.y - s, center.z - s⟩
  let p2 : Vec3 := ⟨center.x + s, center.y + s, center.z - s⟩
  let p3 : Vec3 := ⟨center.x - s, center.y + s, center.z - s⟩
  let p4 : Vec3 := ⟨center.x - s, center.y - s, center.z + s⟩
  let p5 : Vec3 := ⟨center.x + s, center.y - s, center.z + s⟩
  let p6 : Vec3 := ⟨center.x + s, center.y + s, center.z + s⟩
  let p7 : Vec3 := ⟨center.x - s, center.y + s, center.z + s⟩
  ([[p0, p1, p2, p3], [p4, p5, p6, p7], [p0, p1, p5, p4],
    [p2, p3, p7, p6], [p1, p2, p6, p5], [p3, p0, p4, p7]]).mapM Polygon.from_vertices

/-! Derived notions used to state the claims. -/

/-- Polygons stored under an absent child (`None` in Python). -/
def optAll (o : Option BSPNode) : List Polygon :=
  match o with
  | none => []
  | some c => c.all_polygons

/-- Boolean form of the coplanarity test of `BSPNode.build`. -/
def copB (pl : Plane) (p : Polygon) : Bool :=
  decide (|pl.classify_point p.centroid| ≤ eps)

/-- Boolean form of the strict-positive test of `BSPNode.build`. -/
def posB (pl : Plane) (p : Polygon) : Bool :=
  decide (0 < pl.classify_point p.centroid)

def frontB (pl : Plane) (p : Polygon) : Bool := !copB pl p && posB pl p

def backB (pl : Plane) (p : Polygon) : Bool := !copB pl p && !posB pl p

/-- How `build` treats one child slot: an empty list leaves the slot as it
was; a non-empty list builds into the (possibly freshly created) child. -/
def ChildOk (fuel : Nat) (old : Option BSPNode) (l : List Polygon) (res : Option BSPNode) :
    Prop :=
  (l = [] ∧ res = old) ∨
  (l ≠ [] ∧ ∃ tc, BSPNode.build fuel (old.getD BSPNode.empty) l = some tc ∧ res = some tc)

/-- A polygon whose centroid classifies as coplanar against its own plane
(true of every planar polygon and of every degenerate-plane polygon). -/
def SelfCoplanar (p : Polygon) : Prop :=
  |p.plane.classify_point p.centroid| ≤ eps

/-- The BSP ordering invariant as the spec states it: stored polygons are
within `eps` of the node's plane, front-subtree polygons classify strictly
positive, back-subtree polygons strictly negative. -/
def BSPNode.Inv : BSPNode → Prop
  | .mk pl? f b polys =>
    (∀ pl, pl? = some pl →
      (∀ q ∈ polys, |pl.classify_point q.centroid| ≤ eps) ∧
      (∀ q ∈ optAll f, 0 < pl.classify_point q.centroid) ∧
      (∀ q ∈ optAll b, pl.classify_point q.centroid < 0)) ∧
    (match f with | none => True | some c => c.Inv) ∧
    (match b with | none => True | some c => c.Inv)

/-- Strengthened invariant recording exactly what the `build` tests give:
front-subtree polygons classify `> eps`, back-subtree ones `< -eps`. -/
def BSPNode.StrongInv : BSPNode → Prop
  | .mk pl? f b polys =>
    (∀ pl, pl? = some pl →
      (∀ q ∈ polys, |pl.classify_point q.centroid| ≤ eps) ∧
      (∀ q ∈ optAll f, eps < pl.classify_point q.centroid) ∧
      (∀ q ∈ optAll b, pl.classify_point q.centroid < -eps)) ∧
    (match f with | none => True | some c => c.StrongInv) ∧
    (match b with | none => True | some c => c.StrongInv)

/-- Three points on one line. -/
def Collinear3 (a b c : Vec3) : Prop :=
  ∃ t : ℝ, (b.sub a) = (c.sub a).smul t ∨ (c.sub a) = (b.sub a).smul t

/-! Concrete geometry used by witnesses and counterexamples. -/

/-- A planar triangle in the plane z = 0. -/
def tri : Polygon :=
  ⟨[⟨0, 0, 0⟩, ⟨1, 0, 0⟩, ⟨0, 1, 0⟩], Plane.from_points ⟨0, 0, 0⟩ ⟨1, 0, 0⟩ ⟨0, 1, 0⟩⟩

/-- A planar triangle in the plane z = 1. -/
def tri2 : Polygon :=
  ⟨[⟨0, 0, 1⟩, ⟨1, 0, 1⟩, ⟨0, 1, 1⟩], Plane.from_points ⟨0, 0, 1⟩ ⟨1, 0, 1⟩ ⟨0, 1, 1⟩⟩

/-- A non-planar quadrilateral: its fourth vertex pulls the centroid off
the plane derived from the first three vertices. -/
def badPoly : Polygon :=
  ⟨[⟨0, 0, 0⟩, ⟨1, 0, 0⟩, ⟨0, 1, 0⟩, ⟨0, 0, 4⟩],
   Plane.from_points ⟨0, 0, 0⟩ ⟨1, 0, 0⟩ ⟨0, 1, 0⟩⟩

/-- The tree built from `[tri]`. -/
def triNode : BSPNode := .mk (some ⟨⟨0, 0, 1⟩, 0⟩) none none [tri]

def triTree : BSPTree := ⟨triNode⟩

/-- A differently shaped tree with the same traversal as `triTree`. -/
def altRoot : BSPNode := .mk none none (some (.mk none none none [tri])) []

def altTree : BSPTree := ⟨altRoot⟩

/-- The subtree built from `[tri2]`. -/
def tri2Node : BSPNode := .mk (some ⟨⟨0, 0, 1⟩, 1⟩) none none [tri2]

/-- The tree built from `[tri, tri2]`. -/
def triPairNode : BSPNode := .mk (some ⟨⟨0, 0, 1⟩, 0⟩) (some tri2Node) none [tri]

/-! The corners, faces and built tree of the size-10 origin cube. -/

def q0 : Vec3 := ⟨-5, -5, -5⟩

def q1 : Vec3 := ⟨5, -5, -5⟩

def q2 : Vec3 := ⟨5, 5, -5⟩

def q3 : Vec3 := ⟨-5, 5, -5⟩

def q4 : Vec3 := ⟨-5, -5, 5⟩

def q5 : Vec3 := ⟨5, -5, 5⟩

def q6 : Vec3 := ⟨5, 5, 5⟩

def q7 : Vec3 := ⟨-5, 5, 5⟩

def cf0 : Polygon := ⟨[q0, q1, q2, q3], Plane.from_points q0 q1 q2⟩

def cf1 : Polygon := ⟨[q4, q5, q6, q7], Plane.from_points q4 q5 q6⟩

def cf2 : Polygon := ⟨[q0, q1, q5, q4], Plane.from_points q0 q1 q5⟩

def cf3 : Polygon := ⟨[q2, q3, q7, q6], Plane.from_points q2 q3 q7⟩

def cf4 : Polygon := ⟨[q1, q2, q6, q5], Plane.from_points q1 q2 q6⟩

def cf5 : Polygon := ⟨[q3, q0, q4, q7], Plane.from_points q3 q0 q4⟩

def cubePolys : List Polygon := [cf0, cf1, cf2, cf3, cf4, cf5]

def nodeE : BSPNode := .mk (some ⟨⟨-1, 0, 0⟩, 5⟩) none none [cf5]

def nodeD : BSPNode := .mk (some ⟨⟨1, 0, 0⟩, 5⟩) none (some nodeE) [cf4]

def nodeC : BSPNode := .mk (some ⟨⟨0, 1, 0⟩, 5⟩) none (some nodeD) [cf3]

def nodeB : BSPNode := .mk (some ⟨⟨0, -1, 0⟩, 5⟩) none (some nodeC) [cf2]

def nodeA : BSPNode := .mk (some ⟨⟨0, 0, 1⟩, 5⟩) none (some nodeB) [cf1]

def cubeRoot : BSPNode := .mk (some ⟨⟨0, 0, 1⟩, -5⟩) (some nodeA) none [cf0]

def cubeTree : BSPTree := ⟨cubeRoot⟩

/-! Basic unfolding lemmas. -/

@[simp] lemma BSPNode.plane_mk (pl f b polys) : (BSPNode.mk pl f b polys).plane = pl := rfl

@[simp] lemma BSPNode.front_mk (pl f b polys) : (BSPNode.mk pl f b polys).front = f := rfl

@[simp] lemma BSPNode.back_mk (pl f b polys) : (BSPNode.mk pl f b polys).back = b := rfl

@[simp] lemma BSPNode.polygons_mk (pl f b polys) :
    (BSPNode.mk pl f b polys).polygons = polys := rfl

@[simp] lemma optAll_none : optAll none = [] := rfl

@[simp] lemma optAll_some (c : BSPNode) : optAll (some c) = c.all_polygons := rfl

lemma BSPNode.all_polygons_mk (pl f b polys) :
    (BSPNode.mk pl f b polys).all_polygons = polys ++ optAll f ++ optAll b := by
  cases f <;> cases b <;> rfl

@[simp] lemma BSPNode.all_polygons_empty : BSPNode.empty.all_polygons = [] := rfl

@[simp] lemma BSPNode.all_polygons_bare :
    (BSPNode.mk none none none ([] : List Polygon)).all_polygons = [] := rfl

@[simp] lemma Vec3.dot_mk (x1 y1 z1 x2 y2 z2 : ℝ) :
    Vec3.dot ⟨x1, y1, z1⟩ ⟨x2, y2, z2⟩ = x1 * x2 + y1 * y2 + z1 * z2 := rfl

@[simp] lemma Vec3.sub_mk (x1 y1 z1 x2 y2 z2 : ℝ) :
    Vec3.sub ⟨x1, y1, z1⟩ ⟨x2, y2, z2⟩ = ⟨x1 - x2, y1 - y2, z1 - z2⟩ := rfl

@[simp] lemma Vec3.smul_mk (x y z s : ℝ) :
    Vec3.smul ⟨x, y, z⟩ s = ⟨x * s, y * s, z * s⟩ := rfl

@[simp] lemma Vec3.cross_mk (x1 y1 z1 x2 y2 z2 : ℝ) :
    Vec3.cross ⟨x1, y1, z1⟩ ⟨x2, y2, z2⟩ =
      ⟨y1 * z2 - z1 * y2, z1 * x2 - x1 * z2, x1 * y2 - y1 * x2⟩ := rfl

@[simp] lemma Plane.classify_point_mk (nx ny nz d px py pz : ℝ) :
    Plane.classify_point ⟨⟨nx, ny, nz⟩, d⟩ ⟨px, py, pz⟩ =
      nx * px + ny * py + nz * pz - d := rfl

lemma eps_pos : (0 : ℝ) < eps := by norm_num [eps]

/-! Evaluation lemmas for the square-root-bearing primitives. -/

lemma Vec3.length_eval (x y z r : ℝ) (h : x * x + y * y + z * z = r * r) (hr : 0 ≤ r) :
    Vec3.length ⟨x, y, z⟩ = r := by
  unfold Vec3.length
  rw [Vec3.dot_mk, h, Real.sqrt_mul_self hr]

lemma Vec3.normalize_eval (x y z r : ℝ) (h : x * x + y * y + z * z = r * r) (hr : 0 < r) :
    Vec3.normalize ⟨x, y, z⟩ = ⟨x / r, y / r, z / r⟩ := by
  unfold Vec3.normalize
  rw [Vec3.length_eval x y z r h hr.le, if_neg hr.ne', Vec3.smul_mk]
  simp [div_eq_mul_inv]

lemma Vec3.normalize_of_dot_zero (v : Vec3) (h : v.dot v = 0) :
    v.normalize = ⟨0, 0, 0⟩ := by
  unfold Vec3.normalize
  rw [if_pos]
  unfold Vec3.length
  rw [h, Real.sqrt_zero]

lemma Plane.from_points_eval (a b c : Vec3) (x y z r : ℝ)
    (hc : (b.sub a).cross (c.sub a) = ⟨x, y, z⟩)
    (h : x * x + y * y + z * z = r * r) (hr : 0 < r) :
    Plane.from_points a b c =
      ⟨⟨x / r, y / r, z / r⟩, (x / r) * a.x + (y / r) * a.y + (z / r) * a.z⟩ := by
  simp only [Plane.from_points]
  rw [hc, Vec3.normalize_eval x y z r h hr]
  cases a
  rw [Vec3.dot_mk]

/-! The partition loop as three order-preserving filters. -/

lemma partitionPolys_eq_filters (pl : Plane) (L : List Polygon) :
    partitionPolys pl L = (L.filter (copB pl), L.filter (frontB pl), L.filter (backB pl)) := by
  induction L with
  | nil => rfl
  | cons p rest ih =>
    by_cases h1 : |pl.classify_point p.centroid| ≤ eps
    · simp [partitionPolys, ih, copB, frontB, backB, List.filter_cons, h1]
    · by_cases h2 : 0 < pl.classify_point p.centroid
      · simp [partitionPolys, ih, copB, posB, frontB, backB, List.filter_cons, h1, h2]
      · simp [partitionPolys, ih, copB, posB, frontB, backB, List.filter_cons, h1, h2]

lemma partitionPolys_perm (pl : Plane) (L : List Polygon) :
    ((partitionPolys pl L).1 ++ ((partitionPolys pl L).2.1 ++ (partitionPolys pl L).2.2)).Perm
      L := by
  induction L with
  | nil => simp [partitionPolys]
  | cons p rest ih =>
    rcases hr : partitionPolys pl rest with ⟨cop, fr, bk⟩
    rw [hr] at ih
    by_cases h1 : |pl.classify_point p.centroid| ≤ eps
    · simp only [partitionPolys, hr, if_pos h1]
      exact ih.cons p
    · by_cases h2 : 0 < pl.classify_point p.centroid
      · simp only [partitionPolys, hr, if_neg h1, if_pos h2]
        exact List.perm_middle.trans (ih.cons p)
      · simp only [partitionPolys, hr, if_neg h1, if_neg h2]
        have e1 : cop ++ (fr ++ p :: bk) = (cop ++ fr) ++ p :: bk :=
          (List.append_assoc _ _ _).symm
        rw [e1]
        refine List.Perm.trans List.perm_middle ?_
        rw [List.append_assoc]
        exact ih.cons p

/-! One step of `build`: introduction and inversion. -/

@[simp] lemma BSPNode.build_nil (fuel : Nat) (node : BSPNode) :
    BSPNode.build fuel node [] = some node := by
  cases fuel <;> rfl

@[simp] lemma BSPNode.build_zero_cons (node : BSPNode) (p : Polygon) (rest : List Polygon) :
    BSPNode.build 0 node (p :: rest) = none := rfl

lemma BSPNode.build_cons_eq (fuel : Nat) (node : BSPNode) (p0 : Polygon)
    (rest cop fr bk : List Polygon) (pl : Plane) (f b : Option BSPNode)
    (hpl : node.plane.getD p0.plane = pl)
    (hparts : partitionPolys pl (p0 :: rest) = (cop, fr, bk))
    (hf : ChildOk fuel node.front fr f) (hb : ChildOk fuel node.back bk b) :
    BSPNode.build (fuel + 1) node (p0 :: rest) =
      some (.mk (some pl) f b (node.polygons ++ cop)) := by
  simp only [BSPNode.build, hpl, hparts]
  rcases hf with ⟨hfe, rfl⟩ | ⟨hfne, tf, htf, rfl⟩ <;>
    rcases hb with ⟨hbe, rfl⟩ | ⟨hbne, tb, htb, rfl⟩
  · rw [if_pos hfe, if_pos hbe]
  · rw [if_pos hfe, if_neg hbne, htb]; rfl
  · rw [if_neg hfne, if_pos hbe, htf]; rfl
  · rw [if_neg hfne, if_neg hbne, htf, htb]; rfl

lemma BSPNode.build_cons_inv (fuel : Nat) (node : BSPNode) (p0 : Polygon)
    (rest : List Polygon) (t : BSPNode)
    (h : BSPNode.build (fuel + 1) node (p0 :: rest) = some t) :
    ∃ f b,
      ChildOk fuel node.front
        (partitionPolys (node.plane.getD p0.plane) (p0 :: rest)).2.1 f ∧
      ChildOk fuel node.back
        (partitionPolys (node.plane.getD p0.plane) (p0 :: rest)).2.2 b ∧
      t = .mk (some (node.plane.getD p0.plane)) f b
        (node.polygons ++ (partitionPolys (node.plane.getD p0.plane) (p0 :: rest)).1) := by
  simp only [BSPNode.build] at h
  by_cases hfr : (partitionPolys (node.plane.getD p0.plane) (p0 :: rest)).2.1 = []
  · rw [if_pos hfr] at h
    by_cases hbk : (partitionPolys (node.plane.getD p0.plane) (p0 :: rest)).2.2 = []
    · rw [if_pos hbk] at h
      exact ⟨node.front, node.back, Or.inl ⟨hfr, rfl⟩, Or.inl ⟨hbk, rfl⟩,
        (Option.some.inj h).symm⟩
    · rw [if_neg hbk] at h
      cases htb : BSPNode.build fuel (node.back.getD BSPNode.empty)
          (partitionPolys (node.plane.getD p0.plane) (p0 :: rest)).2.2 with
      | none => rw [htb] at h; exact Option.noConfusion h
      | some tb =>
        rw [htb] at h
        exact ⟨node.front, some tb, Or.inl ⟨hfr, rfl⟩, Or.inr ⟨hbk, tb, htb, rfl⟩,
          (Option.some.inj h).symm⟩
  · rw [if_neg hfr] at h
    cases htf : BSPNode.build fuel (node.front.getD BSPNode.empty)
        (partitionPolys (node.plane.getD p0.plane) (p0 :: rest)).2.1 with
    | none => rw [htf] at h; exact Option.noConfusion h
    | some tf =>
      rw [htf] at h
      by_cases hbk : (partitionPolys (node.plane.getD p0.plane) (p0 :: rest)).2.2 = []
      · rw [if_pos hbk] at h
        exact ⟨some tf, node.back, Or.inr ⟨hfr, tf, htf, rfl⟩, Or.inl ⟨hbk, rfl⟩,
          (Option.some.inj h).symm⟩
      · rw [if_neg hbk] at h
        cases htb : BSPNode.build fuel (node.back.getD BSPNode.empty)
            (partitionPolys (node.plane.getD p0.plane) (p0 :: rest)).2.2 with
        | none => rw [htb] at h; exact Option.noConfusion h
        | some tb =>
          rw [htb] at h
          exact ⟨some tf, some tb, Or.inr ⟨hfr, tf, htf, rfl⟩,
            Or.inr ⟨hbk, tb, htb, rfl⟩, (Option.some.inj h).symm⟩

/-! Conservation: `build` stores every input polygon exactly once. -/

lemma ChildOk.optAll_perm (fuel : Nat) (old : Option BSPNode) (l : List Polygon)
    (res : Option BSPNode) (h : ChildOk fuel old l res)
    (ih : ∀ node L t, BSPNode.build fuel node L = some t →
      t.all_polygons.Perm (node.all_polygons ++ L)) :
    (optAll res).Perm (optAll old ++ l) := by
  rcases h with ⟨rfl, rfl⟩ | ⟨hne, tc, htc, rfl⟩
  · simp
  · have hp := ih _ _ _ htc
    cases old with
    | none => simpa [BSPNode.empty] using hp
    | some c => simpa using hp

lemma build_all_perm : ∀ (fuel : Nat) (node : BSPNode) (L : List Polygon) (t : BSPNode),
    BSPNode.build fuel node L = some t → t.all_polygons.Perm (node.all_polygons ++ L) := by
  intro fuel
  induction fuel with
  | zero =>
    intro node L t h
    cases L with
    | nil =>
      obtain rfl : node = t := Option.some.inj h
      simp
    | cons p rest => exact Option.noConfusion h
  | succ fuel ih =>
    intro node L t h
    cases L with
    | nil =>
      obtain rfl : node = t := Option.some.inj h
      simp
    | cons p0 rest =>
      obtain ⟨f, b, hf, hb, rfl⟩ := BSPNode.build_cons_inv fuel node p0 rest t h
      have hft := ChildOk.optAll_perm fuel node.front _ f hf ih
      have hbt := ChildOk.optAll_perm fuel node.back _ b hb ih
      have hparts := partitionPolys_perm (node.plane.getD p0.plane) (p0 :: rest)
      have hnode : node.all_polygons =
          node.polygons ++ optAll node.front ++ optAll node.back := by
        cases node
        rw [BSPNode.all_polygons_mk]
        rfl
      rw [BSPNode.all_polygons_mk, hnode, ← Multiset.coe_eq_coe]
      rw [← Multiset.coe_eq_coe] at hft hbt hparts
      simp only [← Multiset.coe_add] at hft hbt hparts ⊢
      rw [hft, hbt, ← hparts]
      abel

lemma mem_partition_cop (pl : Plane) (L : List Polygon) (q : Polygon) :
    q ∈ (partitionPolys pl L).1 ↔ q ∈ L ∧ |pl.classify_point q.centroid| ≤ eps := by
  rw [partitionPolys_eq_filters]
  simp [copB, List.mem_filter]

lemma mem_partition_front (pl : Plane) (L : List Polygon) (q : Polygon) :
    q ∈ (partitionPolys pl L).2.1 ↔
      q ∈ L ∧ ¬|pl.classify_point q.centroid| ≤ eps ∧
        0 < pl.classify_point q.centroid := by
  rw [partitionPolys_eq_filters]
  simp [frontB, copB, posB, List.mem_filter, and_assoc]

lemma mem_partition_back (pl : Plane) (L : List Polygon) (q : Polygon) :
    q ∈ (partitionPolys pl L).2.2 ↔
      q ∈ L ∧ ¬|pl.classify_point q.centroid| ≤ eps ∧
        ¬0 < pl.classify_point q.centroid := by
  rw [partitionPolys_eq_filters]
  simp [backB, copB, posB, List.mem_filter, and_assoc]

lemma BSPTree.make_inv (fuel : Nat) (polys : List Polygon) (t : BSPTree)
    (h : BSPTree.make fuel polys = some t) :
    BSPNode.build fuel BSPNode.empty polys = some t.root := by
  unfold BSPTree.make at h
  cases hb : BSPNode.build fuel BSPNode.empty polys with
  | none => rw [hb] at h; exact Option.noConfusion h
  | some r =>
    rw [hb] at h
    obtain rfl : BSPTree.mk r = t := Option.some.inj h
    rfl

lemma BSPTree.make_all_perm (fuel : Nat) (polys : List Polygon) (t : BSPTree)
    (h : BSPTree.make fuel polys = some t) : t.all_polygons.Perm polys := by
  have hp := build_all_perm fuel BSPNode.empty polys t.root (BSPTree.make_inv fuel polys t h)
  simpa [BSPTree.all_polygons] using hp

/-- C1: polygon coverage.  Whenever the construction of a `BSPTree` from a
polygon list terminates, the depth-first traversal of the resulting tree is
a permutation of the input list: no polygon is dropped or duplicated, and
the lengths (and multisets of elements) agree. -/
theorem bsp_polygon_coverage (fuel : Nat) (polys : List Polygon) (t : BSPTree)
    (h : BSPTree.make fuel polys = some t) :
    t.all_polygons.Perm polys ∧ t.all_polygons.length = polys.length := by
  have hp := BSPTree.make_all_perm fuel polys t h
  exact ⟨hp, hp.length_eq⟩

/-- C2: destruction correctness.  Every polygon surviving an explosion lies
strictly farther than the radius from the blast point; every polygon at
distance ≤ radius is absent from the result; and the kept polygons together
with the removed ones are exactly a permutation of the original tree's
polygons. -/
theorem apply_explosion_partition (fuel : Nat) (T : BSPTree) (P : Vec3) (R : ℝ)
    (T2 : BSPTree) (h : apply_explosion fuel T P R = some T2) :
    (∀ p ∈ T2.all_polygons, R < distance p.centroid P) ∧
    (∀ p ∈ T.all_polygons, distance p.centroid P ≤ R → p ∉ T2.all_polygons) ∧
    (T2.all_polygons ++
        T.all_polygons.filter (fun p => decide (distance p.centroid P ≤ R))).Perm
      T.all_polygons := by
  have hp := BSPTree.make_all_perm _ _ _ h
  refine ⟨?_, ?_, ?_⟩
  · intro p hp2
    have hmem := hp.subset hp2
    exact of_decide_eq_true (List.mem_filter.mp hmem).2
  · intro p _ hle hmem2
    have hmem := hp.subset hmem2
    exact absurd (of_decide_eq_true (List.mem_filter.mp hmem).2) (not_lt.mpr hle)
  · have hfp := List.filter_append_perm
      (fun p => decide (R < distance p.centroid P)) T.all_polygons
    have hco : T.all_polygons.filter (fun p => !decide (R < distance p.centroid P)) =
        T.all_polygons.filter (fun p => decide (distance p.centroid P ≤ R)) := by
      apply List.filter_congr
      intro a _
      simp only [← decide_not, decide_eq_decide]
      exact not_lt
    rw [← hco]
    exact (hp.append_right _).trans hfp

/-! Concrete evaluations for the witness geometry. -/

lemma plane_z0_eval : Plane.from_points ⟨0, 0, 0⟩ ⟨1, 0, 0⟩ ⟨0, 1, 0⟩ = ⟨⟨0, 0, 1⟩, 0⟩ := by
  have h := Plane.from_points_eval ⟨0, 0, 0⟩ ⟨1, 0, 0⟩ ⟨0, 1, 0⟩ 0 0 1 1
    (by norm_num) (by norm_num) (by norm_num)
  rw [h]
  norm_num

lemma plane_z1_eval : Plane.from_points ⟨0, 0, 1⟩ ⟨1, 0, 1⟩ ⟨0, 1, 1⟩ = ⟨⟨0, 0, 1⟩, 1⟩ := by
  have h := Plane.from_points_eval ⟨0, 0, 1⟩ ⟨1, 0, 1⟩ ⟨0, 1, 1⟩ 0 0 1 1
    (by norm_num) (by norm_num) (by norm_num)
  rw [h]
  norm_num

lemma tri_plane : tri.plane = ⟨⟨0, 0, 1⟩, 0⟩ := plane_z0_eval

lemma tri2_plane : tri2.plane = ⟨⟨0, 0, 1⟩, 1⟩ := plane_z1_eval

lemma badPoly_plane : badPoly.plane = ⟨⟨0, 0, 1⟩, 0⟩ := plane_z0_eval

lemma tri_centroid : tri.centroid = ⟨1 / 3, 1 / 3, 0⟩ := by
  norm_num [tri, Polygon.centroid]

lemma tri2_centroid : tri2.centroid = ⟨1 / 3, 1 / 3, 1⟩ := by
  norm_num [tri2, Polygon.centroid]

lemma badPoly_centroid : badPoly.centroid = ⟨1 / 4, 1 / 4, 1⟩ := by
  norm_num [badPoly, Polygon.centroid]

lemma tri_selfCoplanar : SelfCoplanar tri := by
  unfold SelfCoplanar
  rw [tri_plane, tri_centroid]
  norm_num [eps]

lemma tri2_selfCoplanar : SelfCoplanar tri2 := by
  unfold SelfCoplanar
  rw [tri2_plane, tri2_centroid]
  norm_num [eps]

lemma bad_partition : partitionPolys ⟨⟨0, 0, 1⟩, 0⟩ [badPoly] = ([], [badPoly], []) := by
  have hc : (Plane.mk ⟨0, 0, 1⟩ 0).classify_point badPoly.centroid = 1 := by
    rw [badPoly_centroid]
    norm_num
  have h1 : ¬|(1 : ℝ)| ≤ eps := by norm_num [eps]
  have h2 : (0 : ℝ) < 1 := by norm_num
  simp only [partitionPolys, hc, if_neg h1, if_pos h2]

/-- On the non-planar polygon, every amount of fuel is exhausted: the
Python `build` recurses forever (`RecursionError`). -/
lemma bad_build_none : ∀ fuel, BSPNode.build fuel BSPNode.empty [badPoly] = none := by
  intro fuel
  induction fuel with
  | zero => rfl
  | succ fuel ih =>
    cases hb : BSPNode.build (fuel + 1) BSPNode.empty [badPoly] with
    | none => rfl
    | some t =>
      exfalso
      obtain ⟨f, b, hf, hb2, rfl⟩ := BSPNode.build_cons_inv fuel BSPNode.empty badPoly [] t hb
      have hpl : BSPNode.empty.plane.getD badPoly.plane = Plane.mk ⟨0, 0, 1⟩ 0 :=
        badPoly_plane
      rw [hpl, bad_partition] at hf
      rcases hf with ⟨hnil, _⟩ | ⟨_, tc, htc, _⟩
      · exact List.cons_ne_nil _ _ hnil
      · have htc2 : BSPNode.build fuel BSPNode.empty [badPoly] = some tc := htc
        rw [ih] at htc2
        exact Option.noConfusion htc2

/-- When every polygon's centroid is coplanar with its own plane, the head
polygon of every recursive call lands in the node's coplanar list, so both
child lists are strictly shorter and fuel equal to the list length
suffices. -/
lemma build_total_selfCoplanar :
    ∀ (n : Nat) (L : List Polygon), L.length ≤ n → (∀ p ∈ L, SelfCoplanar p) →
      ∃ t, BSPNode.build n BSPNode.empty L = some t := by
  intro n
  induction n with
  | zero =>
    intro L hL _
    cases L with
    | nil => exact ⟨BSPNode.empty, rfl⟩
    | cons p rest => simp at hL
  | succ n ih =>
    intro L hL hgood
    cases L with
    | nil => exact ⟨BSPNode.empty, rfl⟩
    | cons p0 rest =>
      have hpl : BSPNode.empty.plane.getD p0.plane = p0.plane := rfl
      rcases hp : partitionPolys p0.plane (p0 :: rest) with ⟨cop, fr, bk⟩
      have hgood0 : |p0.plane.classify_point p0.centroid| ≤ eps :=
        hgood p0 (List.mem_cons_self p0 rest)
      have hperm := partitionPolys_perm p0.plane (p0 :: rest)
      rw [hp] at hperm
      have hlen : cop.length + (fr.length + bk.length) = rest.length + 1 := by
        have hl := hperm.length_eq
        simpa using hl
      have hcop0 : p0 ∈ cop := by
        have hm := (mem_partition_cop p0.plane (p0 :: rest) p0).mpr
          ⟨List.mem_cons_self p0 rest, hgood0⟩
        rw [hp] at hm
        exact hm
      have hcoplen : 0 < cop.length := List.length_pos.mpr (List.ne_nil_of_mem hcop0)
      have hrest : rest.length ≤ n := by simpa using hL
      have hfr_le : fr.length ≤ n := by omega
      have hbk_le : bk.length ≤ n := by omega
      have hfr_good : ∀ p ∈ fr, SelfCoplanar p := by
        intro p hpm
        have hm : p ∈ (partitionPolys p0.plane (p0 :: rest)).2.1 := by rw [hp]; exact hpm
        exact hgood p ((mem_partition_front _ _ _).mp hm).1
      have hbk_good : ∀ p ∈ bk, SelfCoplanar p := by
        intro p hpm
        have hm : p ∈ (partitionPolys p0.plane (p0 :: rest)).2.2 := by rw [hp]; exact hpm
        exact hgood p ((mem_partition_back _ _ _).mp hm).1
      have hfC : ∃ f, ChildOk n BSPNode.empty.front fr f := by
        by_cases hfe : fr = []
        · exact ⟨BSPNode.empty.front, Or.inl ⟨hfe, rfl⟩⟩
        · obtain ⟨tf, htf⟩ := ih fr hfr_le hfr_good
          exact ⟨some tf, Or.inr ⟨hfe, tf, htf, rfl⟩⟩
      have hbC : ∃ b, ChildOk n BSPNode.empty.back bk b := by
        by_cases hbe : bk = []
        · exact ⟨BSPNode.empty.back, Or.inl ⟨hbe, rfl⟩⟩
        · obtain ⟨tb, htb⟩ := ih bk hbk_le hbk_good
          exact ⟨some tb, Or.inr ⟨hbe, tb, htb, rfl⟩⟩
      obtain ⟨f, hf⟩ := hfC
      obtain ⟨b, hb⟩ := hbC
      exact ⟨_, BSPNode.build_cons_eq n BSPNode.empty p0 rest cop fr bk p0.plane f b
        hpl hp hf hb⟩

/-- C3 counterexample: `BSPTree` construction does NOT terminate on every
input.  On the non-planar polygon `badPoly` (centroid off its own plane)
the build recursion never returns, whatever the stack depth. -/
theorem bsp_build_divergent_on_badPoly :
    ¬∃ fuel t, BSPTree.make fuel [badPoly] = some t := by
  rintro ⟨fuel, t, h⟩
  have hr := BSPTree.make_inv fuel [badPoly] t h
  rw [bad_build_none] at hr
  exact Option.noConfusion hr

/-- C3 amended: `BSPTree` construction terminates for every finite list of
polygons whose centroids are within `eps` of their own derived planes
(planar polygons and degenerate zero-normal planes included): fuel equal to
the list length already suffices. -/
theorem bsp_build_terminates_selfCoplanar (polys : List Polygon)
    (h : ∀ p ∈ polys, SelfCoplanar p) :
    ∃ t, BSPTree.make polys.length polys = some t := by
  obtain ⟨r, hr⟩ := build_total_selfCoplanar polys.length polys le_rfl h
  refine ⟨⟨r⟩, ?_⟩
  unfold BSPTree.make
  rw [hr]
  rfl

/-- C4: on a node without a plane, `build` adopts the first polygon's plane,
stores exactly the order-preserved sublist of polygons whose centroid
classifies within `eps` of that plane, and hands the strictly-positive
(resp. strictly-negative) classifying polygons to the front (resp. back)
child's build. -/
theorem build_step_classification (fuel : Nat) (node : BSPNode) (p0 : Polygon)
    (rest : List Polygon) (t : BSPNode) (hplane : node.plane = none)
    (h : BSPNode.build (fuel + 1) node (p0 :: rest) = some t) :
    t.plane = some p0.plane ∧
    t.polygons = node.polygons ++ (p0 :: rest).filter (copB p0.plane) ∧
    ChildOk fuel node.front ((p0 :: rest).filter (frontB p0.plane)) t.front ∧
    ChildOk fuel node.back ((p0 :: rest).filter (backB p0.plane)) t.back := by
  obtain ⟨f, b, hf, hb, rfl⟩ := BSPNode.build_cons_inv fuel node p0 rest t h
  rw [hplane] at hf hb ⊢
  have hgd : (none : Option Plane).getD p0.plane = p0.plane := rfl
  rw [hgd] at hf hb ⊢
  rw [partitionPolys_eq_filters] at hf hb ⊢
  exact ⟨rfl, rfl, hf, hb⟩

/-- C5: polygon construction fails exactly on fewer than 3 vertices, and on
3 or more vertices returns a polygon carrying those vertices; the failure is
returned to the caller, not recovered. -/
theorem from_vertices_spec (verts : List Vec3) :
    ((∃ e, Polygon.from_vertices verts = .error e) ↔ verts.length < 3) ∧
    (3 ≤ verts.length →
      ∃ p, Polygon.from_vertices verts = .ok p ∧ p.vertices = verts) := by
  rcases verts with _ | ⟨a, _ | ⟨b, _ | ⟨c, rest⟩⟩⟩
  · refine ⟨?_, ?_⟩
    · simp [Polygon.from_vertices]
    · intro h
      simp at h
  · refine ⟨?_, ?_⟩
    · simp [Polygon.from_vertices]
    · intro h
      simp at h
  · refine ⟨?_, ?_⟩
    · simp [Polygon.from_vertices]
    · intro h
      simp at h
  · refine ⟨?_, fun _ => ⟨_, rfl, rfl⟩⟩
    simp only [Polygon.from_vertices]
    constructor
    · rintro ⟨e, he⟩
      exact Except.noConfusion he
    · intro h
      simp at h
      omega

/-- C5 witness: one-vertex input is rejected, a 3-vertex input is accepted
and keeps its vertices. -/
theorem from_vertices_spec_witness :
    (∃ e, Polygon.from_vertices [⟨0, 0, 0⟩] = .error e) ∧
    (∃ p, Polygon.from_vertices [⟨0, 0, 0⟩, ⟨1, 0, 0⟩, ⟨0, 1, 0⟩] = .ok p ∧
      p.vertices = [⟨0, 0, 0⟩, ⟨1, 0, 0⟩, ⟨0, 1, 0⟩]) :=
  ⟨(from_vertices_spec [⟨0, 0, 0⟩]).1.mpr (by norm_num),
   (from_vertices_spec [⟨0, 0, 0⟩, ⟨1, 0, 0⟩, ⟨0, 1, 0⟩]).2 (by norm_num)⟩

lemma cross_smul_self (v : Vec3) (t : ℝ) : (v.smul t).cross v = ⟨0, 0, 0⟩ := by
  cases v
  simp only [Vec3.smul_mk, Vec3.cross_mk, Vec3.mk.injEq]
  refine ⟨by ring, by ring, by ring⟩

lemma cross_self_smul (v : Vec3) (t : ℝ) : v.cross (v.smul t) = ⟨0, 0, 0⟩ := by
  cases v
  simp only [Vec3.smul_mk, Vec3.cross_mk, Vec3.mk.injEq]
  refine ⟨by ring, by ring, by ring⟩

/-- C6: three collinear points give a zero-length cross product; normalizing
it yields the zero vector without raising; the derived plane is the zero
plane with `d = 0`; and classifying any point against it returns exactly
`-d = 0`. -/
theorem degenerate_plane_collinear (a b c : Vec3) (h : Collinear3 a b c) :
    ((b.sub a).cross (c.sub a)).length = 0 ∧
    ((b.sub a).cross (c.sub a)).normalize = ⟨0, 0, 0⟩ ∧
    Plane.from_points a b c = ⟨⟨0, 0, 0⟩, 0⟩ ∧
    ∀ p, (Plane.from_points a b c).classify_point p = 0 := by
  have hzero : (b.sub a).cross (c.sub a) = ⟨0, 0, 0⟩ := by
    rcases h with ⟨t, ht | ht⟩
    · rw [ht]
      exact cross_smul_self _ _
    · rw [ht]
      exact cross_self_smul _ _
  have hdot : ((b.sub a).cross (c.sub a)).dot ((b.sub a).cross (c.sub a)) = 0 := by
    rw [hzero]
    norm_num
  have hlen : ((b.sub a).cross (c.sub a)).length = 0 := by
    unfold Vec3.length
    rw [hdot, Real.sqrt_zero]
  have hnorm : ((b.sub a).cross (c.sub a)).normalize = ⟨0, 0, 0⟩ :=
    Vec3.normalize_of_dot_zero _ hdot
  have hplane : Plane.from_points a b c = ⟨⟨0, 0, 0⟩, 0⟩ := by
    simp only [Plane.from_points]
    rw [hnorm]
    cases a
    norm_num
  refine ⟨hlen, hnorm, hplane, fun p => ?_⟩
  rw [hplane]
  cases p
  norm_num

/-- C6 witness: three concrete collinear points on the x-axis. -/
theorem degenerate_plane_collinear_witness :
    Plane.from_points ⟨0, 0, 0⟩ ⟨1, 0, 0⟩ ⟨2, 0, 0⟩ = ⟨⟨0, 0, 0⟩, 0⟩ ∧
    (Plane.from_points ⟨0, 0, 0⟩ ⟨1, 0, 0⟩ ⟨2, 0, 0⟩).classify_point ⟨5, 7, 9⟩ = 0 := by
  have h := degenerate_plane_collinear ⟨0, 0, 0⟩ ⟨1, 0, 0⟩ ⟨2, 0, 0⟩
    ⟨2, Or.inr (by norm_num)⟩
  exact ⟨h.2.2.1, h.2.2.2 ⟨5, 7, 9⟩⟩

/-! The BSP ordering invariant holds of every freshly built tree. -/

@[simp] lemma BSPNode.plane_empty : BSPNode.empty.plane = none := rfl

@[simp] lemma BSPNode.front_empty : BSPNode.empty.front = none := rfl

@[simp] lemma BSPNode.back_empty : BSPNode.empty.back = none := rfl

@[simp] lemma BSPNode.polygons_empty : BSPNode.empty.polygons = [] := rfl

lemma BSPNode.strongInv_empty : BSPNode.empty.StrongInv := by
  simp only [BSPNode.empty, BSPNode.StrongInv]
  exact ⟨fun pl hpl => Option.noConfusion hpl, trivial, trivial⟩

lemma build_strongInv : ∀ (fuel : Nat) (L : List Polygon) (t : BSPNode),
    BSPNode.build fuel BSPNode.empty L = some t → t.StrongInv := by
  intro fuel
  induction fuel with
  | zero =>
    intro L t h
    cases L with
    | nil =>
      obtain rfl : BSPNode.empty = t := Option.some.inj h
      exact BSPNode.strongInv_empty
    | cons p rest => exact Option.noConfusion h
  | succ fuel ih =>
    intro L t h
    cases L with
    | nil =>
      obtain rfl : BSPNode.empty = t := Option.some.inj h
      exact BSPNode.strongInv_empty
    | cons p0 rest =>
      obtain ⟨f, b, hf, hb, rfl⟩ := BSPNode.build_cons_inv fuel BSPNode.empty p0 rest t h
      unfold BSPNode.StrongInv
      refine ⟨?_, ?_, ?_⟩
      · intro pl hpl
        obtain rfl := Option.some.inj hpl
        refine ⟨?_, ?_, ?_⟩
        · intro q hq
          have hq2 : q ∈ (partitionPolys (BSPNode.empty.plane.getD p0.plane)
              (p0 :: rest)).1 := by simpa using hq
          exact ((mem_partition_cop _ _ _).mp hq2).2
        · intro q hq
          rcases hf with ⟨hfe, rfl⟩ | ⟨hfne, tf, htf, rfl⟩
          · simp at hq
          · have hperm := build_all_perm fuel _ _ tf htf
            have hq2 : q ∈ (partitionPolys (BSPNode.empty.plane.getD p0.plane)
                (p0 :: rest)).2.1 := by
              have hm := hperm.subset (by simpa using hq)
              simpa using hm
            obtain ⟨_, hc1, hc2⟩ := (mem_partition_front _ _ _).mp hq2
            have hlt := not_le.mp hc1
            rwa [abs_of_pos hc2] at hlt
        · intro q hq
          rcases hb with ⟨hbe, rfl⟩ | ⟨hbne, tb, htb, rfl⟩
          · simp at hq
          · have hperm := build_all_perm fuel _ _ tb htb
            have hq2 : q ∈ (partitionPolys (BSPNode.empty.plane.getD p0.plane)
                (p0 :: rest)).2.2 := by
              have hm := hperm.subset (by simpa using hq)
              simpa using hm
            obtain ⟨_, hc1, hc2⟩ := (mem_partition_back _ _ _).mp hq2
            have hle := not_lt.mp hc2
            have hlt := not_le.mp hc1
            rw [abs_of_nonpos hle] at hlt
            linarith
      · rcases hf with ⟨hfe, rfl⟩ | ⟨hfne, tf, htf, rfl⟩
        · trivial
        · exact ih _ _ htf
      · rcases hb with ⟨hbe, rfl⟩ | ⟨hbne, tb, htb, rfl⟩
        · trivial
        · exact ih _ _ htb

lemma strongInv_imp_inv : ∀ (n : Nat) (t : BSPNode), sizeOf t ≤ n →
    t.StrongInv → t.Inv := by
  intro n
  induction n with
  | zero =>
    intro t hs _
    exfalso
    cases t with
    | mk pl f b polys => simp [BSPNode.mk.sizeOf_spec] at hs
  | succ n ih =>
    intro t hs hinv
    cases t with
    | mk pl f b polys =>
      unfold BSPNode.StrongInv at hinv
      unfold BSPNode.Inv
      obtain ⟨h1, h2, h3⟩ := hinv
      refine ⟨?_, ?_, ?_⟩
      · intro p hp
        obtain ⟨ha, hbnd, hcnd⟩ := h1 p hp
        refine ⟨ha, fun q hq => lt_trans eps_pos (hbnd q hq), fun q hq => ?_⟩
        have := hcnd q hq
        have hneg : -eps < 0 := by linarith [eps_pos]
        linarith
      · cases f with
        | none => trivial
        | some c =>
          refine ih c ?_ h2
          simp at hs
          omega
      · cases b with
        | none => trivial
        | some c =>
          refine ih c ?_ h3
          simp at hs
          omega

/-- C7: every tree produced by construction satisfies the BSP ordering
invariant (stored polygons within `eps` of the node plane, front-subtree
polygons strictly positive, back-subtree polygons strictly negative), and
the explosion edit preserves it because it only ever builds fresh trees. -/
theorem bsp_tree_invariant :
    (∀ (fuel : Nat) (polys : List Polygon) (t : BSPTree),
      BSPTree.make fuel polys = some t → t.root.Inv) ∧
    (∀ (fuel : Nat) (T : BSPTree) (P : Vec3) (R : ℝ) (T2 : BSPTree),
      apply_explosion fuel T P R = some T2 → T2.root.Inv) := by
  have hmake : ∀ (fuel : Nat) (polys : List Polygon) (t : BSPTree),
      BSPTree.make fuel polys = some t → t.root.Inv := by
    intro fuel polys t h
    have hs := build_strongInv fuel polys t.root (BSPTree.make_inv fuel polys t h)
    exact strongInv_imp_inv (sizeOf t.root) t.root le_rfl hs
  exact ⟨hmake, fun fuel T P R T2 h => hmake _ _ _ h⟩

/-- C8: the explosion edit never mutates its input.  In this pure embedding
object mutation is impossible by construction; the theorem records the
observable content of the code: the result is built wholesale from the
input tree's traversal sequence alone (two trees with identical traversals
give identical results), through a fresh `BSPTree` construction. -/
theorem apply_explosion_fresh (fuel : Nat) (T T2 : BSPTree) (P : Vec3) (R : ℝ)
    (h : T.all_polygons = T2.all_polygons) :
    apply_explosion fuel T P R = apply_explosion fuel T2 P R ∧
    apply_explosion fuel T P R = BSPTree.make fuel (T.all_polygons.filter
      (fun p => decide (R < distance p.centroid P))) := by
  constructor
  · unfold apply_explosion
    rw [h]
  · rfl

/-! Evaluations of `build` and `apply_explosion` on the witness geometry. -/

lemma tri_partition : partitionPolys ⟨⟨0, 0, 1⟩, 0⟩ [tri] = ([tri], [], []) := by
  have hc : (Plane.mk ⟨0, 0, 1⟩ 0).classify_point tri.centroid = 0 := by
    rw [tri_centroid]
    norm_num
  have h1 : |(0 : ℝ)| ≤ eps := by norm_num [eps]
  simp only [partitionPolys, hc, if_pos h1]

lemma tri2_partition : partitionPolys ⟨⟨0, 0, 1⟩, 1⟩ [tri2] = ([tri2], [], []) := by
  have hc : (Plane.mk ⟨0, 0, 1⟩ 1).classify_point tri2.centroid = 0 := by
    rw [tri2_centroid]
    norm_num
  have h1 : |(0 : ℝ)| ≤ eps := by norm_num [eps]
  simp only [partitionPolys, hc, if_pos h1]

lemma build_tri : BSPNode.build 1 BSPNode.empty [tri] = some triNode := by
  have h := BSPNode.build_cons_eq 0 BSPNode.empty tri [] [tri] [] [] ⟨⟨0, 0, 1⟩, 0⟩
    none none tri_plane tri_partition (Or.inl ⟨rfl, rfl⟩) (Or.inl ⟨rfl, rfl⟩)
  simpa [triNode] using h

lemma build_tri2 : BSPNode.build 1 BSPNode.empty [tri2] = some tri2Node := by
  have h := BSPNode.build_cons_eq 0 BSPNode.empty tri2 [] [tri2] [] [] ⟨⟨0, 0, 1⟩, 1⟩
    none none tri2_plane tri2_partition (Or.inl ⟨rfl, rfl⟩) (Or.inl ⟨rfl, rfl⟩)
  simpa [tri2Node] using h

lemma make_tri : BSPTree.make 1 [tri] = some triTree := by
  unfold BSPTree.make
  rw [build_tri]
  rfl

lemma pair_partition : partitionPolys ⟨⟨0, 0, 1⟩, 0⟩ [tri, tri2] = ([tri], [tri2], []) := by
  have hc1 : (Plane.mk ⟨0, 0, 1⟩ 0).classify_point tri.centroid = 0 := by
    rw [tri_centroid]
    norm_num
  have hc2 : (Plane.mk ⟨0, 0, 1⟩ 0).classify_point tri2.centroid = 1 := by
    rw [tri2_centroid]
    norm_num
  have h1 : |(0 : ℝ)| ≤ eps := by norm_num [eps]
  have h2 : ¬|(1 : ℝ)| ≤ eps := by norm_num [eps]
  have h3 : (0 : ℝ) < 1 := by norm_num
  simp only [partitionPolys, hc1, hc2, if_pos h1, if_neg h2, if_pos h3]

lemma build_pair : BSPNode.build 2 BSPNode.empty [tri, tri2] = some triPairNode := by
  have hch : ChildOk 1 BSPNode.empty.front [tri2] (some tri2Node) :=
    Or.inr ⟨List.cons_ne_nil _ _, tri2Node, build_tri2, rfl⟩
  have h := BSPNode.build_cons_eq 1 BSPNode.empty tri [tri2] [tri] [tri2] []
    ⟨⟨0, 0, 1⟩, 0⟩ (some tri2Node) none tri_plane pair_partition hch (Or.inl ⟨rfl, rfl⟩)
  simpa [triPairNode] using h

lemma triTree_all : triTree.all_polygons = [tri] := by
  show triNode.all_polygons = [tri]
  unfold triNode
  rw [BSPNode.all_polygons_mk]
  simp

lemma altTree_all : altTree.all_polygons = [tri] := by
  show altRoot.all_polygons = [tri]
  unfold altRoot
  rw [BSPNode.all_polygons_mk]
  simp [optAll, BSPNode.all_polygons_mk]

lemma distance_eval (a b : Vec3) (r : ℝ)
    (h : (a.x - b.x) ^ 2 + (a.y - b.y) ^ 2 + (a.z - b.z) ^ 2 = r * r) (hr : 0 ≤ r) :
    distance a b = r := by
  unfold distance
  rw [h, Real.sqrt_mul_self hr]

lemma dist_tri_far : distance tri.centroid ⟨1 / 3, 1 / 3, 10⟩ = 10 := by
  rw [tri_centroid]
  exact distance_eval ⟨1 / 3, 1 / 3, 0⟩ ⟨1 / 3, 1 / 3, 10⟩ 10 (by norm_num) (by norm_num)

lemma expl_tri : apply_explosion 1 triTree ⟨1 / 3, 1 / 3, 10⟩ 1 = some triTree := by
  have hstep : triTree.all_polygons.filter
      (fun p => decide ((1 : ℝ) < distance p.centroid ⟨1 / 3, 1 / 3, 10⟩)) = [tri] := by
    rw [triTree_all]
    simp only [List.filter_cons, List.filter_nil]
    rw [show decide ((1 : ℝ) < distance tri.centroid ⟨1 / 3, 1 / 3, 10⟩) = true from by
      rw [dist_tri_far]; exact decide_eq_true (by norm_num)]
    simp
  unfold apply_explosion
  rw [hstep]
  exact make_tri

/-- C1 witness: building from the one-triangle list conserves it. -/
theorem bsp_polygon_coverage_witness :
    triTree.all_polygons.Perm [tri] ∧ triTree.all_polygons.length = [tri].length :=
  bsp_polygon_coverage 1 [tri] triTree make_tri

/-- C2 witness: an explosion far from the triangle keeps it and the kept
and removed lists partition the original exactly. -/
theorem apply_explosion_partition_witness :
    (∀ p ∈ triTree.all_polygons, (1 : ℝ) < distance p.centroid ⟨1 / 3, 1 / 3, 10⟩) ∧
    (∀ p ∈ triTree.all_polygons, distance p.centroid ⟨1 / 3, 1 / 3, 10⟩ ≤ 1 →
      p ∉ triTree.all_polygons) ∧
    (triTree.all_polygons ++ triTree.all_polygons.filter
        (fun p => decide (distance p.centroid ⟨1 / 3, 1 / 3, 10⟩ ≤ 1))).Perm
      triTree.all_polygons :=
  apply_explosion_partition 1 triTree ⟨1 / 3, 1 / 3, 10⟩ 1 triTree expl_tri

/-- C3 witness for the amended claim: a list of self-coplanar polygons
builds successfully with fuel equal to its length. -/
theorem bsp_build_terminates_selfCoplanar_witness :
    ∃ t, BSPTree.make [tri, tri2].length [tri, tri2] = some t :=
  bsp_build_terminates_selfCoplanar [tri, tri2] (by
    intro p hp
    rcases List.mem_cons.mp hp with rfl | hp2
    · exact tri_selfCoplanar
    · rcases List.mem_cons.mp hp2 with rfl | hp3
      · exact tri2_selfCoplanar
      · exact absurd hp3 (List.not_mem_nil p))

/-- C4 witness: building `[tri, tri2]` on a fresh node adopts `tri`'s
plane, keeps `tri` coplanar and sends `tri2` to the front child. -/
theorem build_step_classification_witness :
    triPairNode.plane = some tri.plane ∧
    triPairNode.polygons =
      BSPNode.empty.polygons ++ [tri, tri2].filter (copB tri.plane) ∧
    ChildOk 1 BSPNode.empty.front ([tri, tri2].filter (frontB tri.plane))
      triPairNode.front ∧
    ChildOk 1 BSPNode.empty.back ([tri, tri2].filter (backB tri.plane))
      triPairNode.back :=
  build_step_classification 1 BSPNode.empty tri [tri2] triPairNode rfl build_pair

/-- C7 witness: the tree built from the triangle satisfies the invariant. -/
theorem bsp_tree_invariant_witness : triTree.root.Inv :=
  bsp_tree_invariant.1 1 [tri] triTree make_tri

/-- C8 witness: two structurally different trees with the same traversal
give the same explosion result, which is a fresh rebuild of the filtered
traversal. -/
theorem apply_explosion_fresh_witness :
    apply_explosion 1 triTree ⟨0, 0, 0⟩ 1 = apply_explosion 1 altTree ⟨0, 0, 0⟩ 1 ∧
    apply_explosion 1 triTree ⟨0, 0, 0⟩ 1 = BSPTree.make 1 (triTree.all_polygons.filter
      (fun p => decide ((1 : ℝ) < distance p.centroid ⟨0, 0, 0⟩))) :=
  apply_explosion_fresh 1 triTree altTree ⟨0, 0, 0⟩ 1
    (by rw [triTree_all, altTree_all])

/-! Cube face planes and centroids. -/

lemma cf0_plane : cf0.plane = ⟨⟨0, 0, 1⟩, -5⟩ := by
  have h := Plane.from_points_eval q0 q1 q2 0 0 100 100
    (by norm_num [q0, q1, q2]) (by norm_num) (by norm_num)
  rw [show cf0.plane = Plane.from_points q0 q1 q2 from rfl, h]
  norm_num [q0]

lemma cf1_plane : cf1.plane = ⟨⟨0, 0, 1⟩, 5⟩ := by
  have h := Plane.from_points_eval q4 q5 q6 0 0 100 100
    (by norm_num [q4, q5, q6]) (by norm_num) (by norm_num)
  rw [show cf1.plane = Plane.from_points q4 q5 q6 from rfl, h]
  norm_num [q4]

lemma cf2_plane : cf2.plane = ⟨⟨0, -1, 0⟩, 5⟩ := by
  have h := Plane.from_points_eval q0 q1 q5 0 (-100) 0 100
    (by norm_num [q0, q1, q5]) (by norm_num) (by norm_num)
  rw [show cf2.plane = Plane.from_points q0 q1 q5 from rfl, h]
  norm_num [q0]

lemma cf3_plane : cf3.plane = ⟨⟨0, 1, 0⟩, 5⟩ := by
  have h := Plane.from_points_eval q2 q3 q7 0 100 0 100
    (by norm_num [q2, q3, q7]) (by norm_num) (by norm_num)
  rw [show cf3.plane = Plane.from_points q2 q3 q7 from rfl, h]
  norm_num [q2]

lemma cf4_plane : cf4.plane = ⟨⟨1, 0, 0⟩, 5⟩ := by
  have h := Plane.from_points_eval q1 q2 q6 100 0 0 100
    (by norm_num [q1, q2, q6]) (by norm_num) (by norm_num)
  rw [show cf4.plane = Plane.from_points q1 q2 q6 from rfl, h]
  norm_num [q1]

lemma cf5_plane : cf5.plane = ⟨⟨-1, 0, 0⟩, 5⟩ := by
  have h := Plane.from_points_eval q3 q0 q4 (-100) 0 0 100
    (by norm_num [q3, q0, q4]) (by norm_num) (by norm_num)
  rw [show cf5.plane = Plane.from_points q3 q0 q4 from rfl, h]
  norm_num [q3]

lemma cf0_centroid : cf0.centroid = ⟨0, 0, -5⟩ := by
  norm_num [cf0, q0, q1, q2, q3, Polygon.centroid]

lemma cf1_centroid : cf1.centroid = ⟨0, 0, 5⟩ := by
  norm_num [cf1, q4, q5, q6, q7, Polygon.centroid]

lemma cf2_centroid : cf2.centroid = ⟨0, -5, 0⟩ := by
  norm_num [cf2, q0, q1, q5, q4, Polygon.centroid]

lemma cf3_centroid : cf3.centroid = ⟨0, 5, 0⟩ := by
  norm_num [cf3, q2, q3, q7, q6, Polygon.centroid]

lemma cf4_centroid : cf4.centroid = ⟨5, 0, 0⟩ := by
  norm_num [cf4, q1, q2, q6, q5, Polygon.centroid]

lemma cf5_centroid : cf5.centroid = ⟨-5, 0, 0⟩ := by
  norm_num [cf5, q3, q0, q4, q7, Polygon.centroid]

/-! Running `build` on the cube faces. -/

lemma cube_part1 : partitionPolys ⟨⟨0, 0, 1⟩, -5⟩ cubePolys =
    ([cf0], [cf1, cf2, cf3, cf4, cf5], []) := by
  have h0 : (Plane.mk ⟨0, 0, 1⟩ (-5)).classify_point cf0.centroid = 0 := by
    rw [cf0_centroid]; norm_num
  have h1 : (Plane.mk ⟨0, 0, 1⟩ (-5)).classify_point cf1.centroid = 10 := by
    rw [cf1_centroid]; norm_num
  have h2 : (Plane.mk ⟨0, 0, 1⟩ (-5)).classify_point cf2.centroid = 5 := by
    rw [cf2_centroid]; norm_num
  have h3 : (Plane.mk ⟨0, 0, 1⟩ (-5)).classify_point cf3.centroid = 5 := by
    rw [cf3_centroid]; norm_num
  have h4 : (Plane.mk ⟨0, 0, 1⟩ (-5)).classify_point cf4.centroid = 5 := by
    rw [cf4_centroid]; norm_num
  have h5 : (Plane.mk ⟨0, 0, 1⟩ (-5)).classify_point cf5.centroid = 5 := by
    rw [cf5_centroid]; norm_num
  have e0 : |(0 : ℝ)| ≤ eps := by norm_num [eps]
  have e10 : ¬|(10 : ℝ)| ≤ eps := by norm_num [eps]
  have p10 : (0 : ℝ) < 10 := by norm_num
  have e5 : ¬|(5 : ℝ)| ≤ eps := by norm_num [eps]
  have p5 : (0 : ℝ) < 5 := by norm_num
  simp only [cubePolys, partitionPolys, h0, h1, h2, h3, h4, h5, if_pos e0, if_neg e10,
    if_pos p10, if_neg e5, if_pos p5]

lemma cube_part2 : partitionPolys ⟨⟨0, 0, 1⟩, 5⟩ [cf1, cf2, cf3, cf4, cf5] =
    ([cf1], [], [cf2, cf3, cf4, cf5]) := by
  have h1 : (Plane.mk ⟨0, 0, 1⟩ 5).classify_point cf1.centroid = 0 := by
    rw [cf1_centroid]; norm_num
  have h2 : (Plane.mk ⟨0, 0, 1⟩ 5).classify_point cf2.centroid = -5 := by
    rw [cf2_centroid]; norm_num
  have h3 : (Plane.mk ⟨0, 0, 1⟩ 5).classify_point cf3.centroid = -5 := by
    rw [cf3_centroid]; norm_num
  have h4 : (Plane.mk ⟨0, 0, 1⟩ 5).classify_point cf4.centroid = -5 := by
    rw [cf4_centroid]; norm_num
  have h5 : (Plane.mk ⟨0, 0, 1⟩ 5).classify_point cf5.centroid = -5 := by
    rw [cf5_centroid]; norm_num
  have e0 : |(0 : ℝ)| ≤ eps := by norm_num [eps]
  have em5 : ¬|(-5 : ℝ)| ≤ eps := by norm_num [eps]
  have pm5 : ¬(0 : ℝ) < -5 := by norm_num
  simp only [partitionPolys, h1, h2, h3, h4, h5, if_pos e0, if_neg em5, if_neg pm5]

lemma cube_part3 : partitionPolys ⟨⟨0, -1, 0⟩, 5⟩ [cf2, cf3, cf4, cf5] =
    ([cf2], [], [cf3, cf4, cf5]) := by
  have h2 : (Plane.mk ⟨0, -1, 0⟩ 5).classify_point cf2.centroid = 0 := by
    rw [cf2_centroid]; norm_num
  have h3 : (Plane.mk ⟨0, -1, 0⟩ 5).classify_point cf3.centroid = -10 := by
    rw [cf3_centroid]; norm_num
  have h4 : (Plane.mk ⟨0, -1, 0⟩ 5).classify_point cf4.centroid = -5 := by
    rw [cf4_centroid]; norm_num
  have h5 : (Plane.mk ⟨0, -1, 0⟩ 5).classify_point cf5.centroid = -5 := by
    rw [cf5_centroid]; norm_num
  have e0 : |(0 : ℝ)| ≤ eps := by norm_num [eps]
  have em10 : ¬|(-10 : ℝ)| ≤ eps := by norm_num [eps]
  have pm10 : ¬(0 : ℝ) < -10 := by norm_num
  have em5 : ¬|(-5 : ℝ)| ≤ eps := by norm_num [eps]
  have pm5 : ¬(0 : ℝ) < -5 := by norm_num
  simp only [partitionPolys, h2, h3, h4, h5, if_pos e0, if_neg em10, if_neg pm10,
    if_neg em5, if_neg pm5]

lemma cube_part4 : partitionPolys ⟨⟨0, 1, 0⟩, 5⟩ [cf3, cf4, cf5] =
    ([cf3], [], [cf4, cf5]) := by
  have h3 : (Plane.mk ⟨0, 1, 0⟩ 5).classify_point cf3.centroid = 0 := by
    rw [cf3_centroid]; norm_num
  have h4 : (Plane.mk ⟨0, 1, 0⟩ 5).classify_point cf4.centroid = -5 := by
    rw [cf4_centroid]; norm_num
  have h5 : (Plane.mk ⟨0, 1, 0⟩ 5).classify_point cf5.centroid = -5 := by
    rw [cf5_centroid]; norm_num
  have e0 : |(0 : ℝ)| ≤ eps := by norm_num [eps]
  have em5 : ¬|(-5 : ℝ)| ≤ eps := by norm_num [eps]
  have pm5 : ¬(0 : ℝ) < -5 := by norm_num
  simp only [partitionPolys, h3, h4, h5, if_pos e0, if_neg em5, if_neg pm5]

lemma cube_part5 : partitionPolys ⟨⟨1, 0, 0⟩, 5⟩ [cf4, cf5] = ([cf4], [], [cf5]) := by
  have h4 : (Plane.mk ⟨1, 0, 0⟩ 5).classify_point cf4.centroid = 0 := by
    rw [cf4_centroid]; norm_num
  have h5 : (Plane.mk ⟨1, 0, 0⟩ 5).classify_point cf5.centroid = -10 := by
    rw [cf5_centroid]; norm_num
  have e0 : |(0 : ℝ)| ≤ eps := by norm_num [eps]
  have em10 : ¬|(-10 : ℝ)| ≤ eps := by norm_num [eps]
  have pm10 : ¬(0 : ℝ) < -10 := by norm_num
  simp only [partitionPolys, h4, h5, if_pos e0, if_neg em10, if_neg pm10]

lemma cube_part6 : partitionPolys ⟨⟨-1, 0, 0⟩, 5⟩ [cf5] = ([cf5], [], []) := by
  have h5 : (Plane.mk ⟨-1, 0, 0⟩ 5).classify_point cf5.centroid = 0 := by
    rw [cf5_centroid]; norm_num
  have e0 : |(0 : ℝ)| ≤ eps := by norm_num [eps]
  simp only [partitionPolys, h5, if_pos e0]

lemma cube_buildE : BSPNode.build 1 BSPNode.empty [cf5] = some nodeE := by
  have h := BSPNode.build_cons_eq 0 BSPNode.empty cf5 [] [cf5] [] [] ⟨⟨-1, 0, 0⟩, 5⟩
    none none cf5_plane cube_part6 (Or.inl ⟨rfl, rfl⟩) (Or.inl ⟨rfl, rfl⟩)
  simpa [nodeE] using h

lemma cube_buildD : BSPNode.build 2 BSPNode.empty [cf4, cf5] = some nodeD := by
  have hch : ChildOk 1 BSPNode.empty.back [cf5] (some nodeE) :=
    Or.inr ⟨List.cons_ne_nil _ _, nodeE, cube_buildE, rfl⟩
  have h := BSPNode.build_cons_eq 1 BSPNode.empty cf4 [cf5] [cf4] [] [cf5]
    ⟨⟨1, 0, 0⟩, 5⟩ none (some nodeE) cf4_plane cube_part5 (Or.inl ⟨rfl, rfl⟩) hch
  simpa [nodeD] using h

lemma cube_buildC : BSPNode.build 3 BSPNode.empty [cf3, cf4, cf5] = some nodeC := by
  have hch : ChildOk 2 BSPNode.empty.back [cf4, cf5] (some nodeD) :=
    Or.inr ⟨List.cons_ne_nil _ _, nodeD, cube_buildD, rfl⟩
  have h := BSPNode.build_cons_eq 2 BSPNode.empty cf3 [cf4, cf5] [cf3] [] [cf4, cf5]
    ⟨⟨0, 1, 0⟩, 5⟩ none (some nodeD) cf3_plane cube_part4 (Or.inl ⟨rfl, rfl⟩) hch
  simpa [nodeC] using h

lemma cube_buildB : BSPNode.build 4 BSPNode.empty [cf2, cf3, cf4, cf5] = some nodeB := by
  have hch : ChildOk 3 BSPNode.empty.back [cf3, cf4, cf5] (some nodeC) :=
    Or.inr ⟨List.cons_ne_nil _ _, nodeC, cube_buildC, rfl⟩
  have h := BSPNode.build_cons_eq 3 BSPNode.empty cf2 [cf3, cf4, cf5] [cf2] []
    [cf3, cf4, cf5] ⟨⟨0, -1, 0⟩, 5⟩ none (some nodeC) cf2_plane cube_part3
    (Or.inl ⟨rfl, rfl⟩) hch
  simpa [nodeB] using h

lemma cube_buildA : BSPNode.build 5 BSPNode.empty [cf1, cf2, cf3, cf4, cf5] =
    some nodeA := by
  have hch : ChildOk 4 BSPNode.empty.back [cf2, cf3, cf4, cf5] (some nodeB) :=
    Or.inr ⟨List.cons_ne_nil _ _, nodeB, cube_buildB, rfl⟩
  have h := BSPNode.build_cons_eq 4 BSPNode.empty cf1 [cf2, cf3, cf4, cf5] [cf1] []
    [cf2, cf3, cf4, cf5] ⟨⟨0, 0, 1⟩, 5⟩ none (some nodeB) cf1_plane cube_part2
    (Or.inl ⟨rfl, rfl⟩) hch
  simpa [nodeA] using h

lemma cube_buildRoot : BSPNode.build 6 BSPNode.empty cubePolys = some cubeRoot := by
  have hch : ChildOk 5 BSPNode.empty.front [cf1, cf2, cf3, cf4, cf5] (some nodeA) :=
    Or.inr ⟨List.cons_ne_nil _ _, nodeA, cube_buildA, rfl⟩
  have h := BSPNode.build_cons_eq 5 BSPNode.empty cf0 [cf1, cf2, cf3, cf4, cf5] [cf0]
    [cf1, cf2, cf3, cf4, cf5] [] ⟨⟨0, 0, 1⟩, -5⟩ (some nodeA) none cf0_plane
    (by simpa [cubePolys] using cube_part1) hch (Or.inl ⟨rfl, rfl⟩)
  simpa [cubeRoot, cubePolys] using h

lemma cube_make : BSPTree.make 6 cubePolys = some cubeTree := by
  unfold BSPTree.make
  rw [cube_buildRoot]
  rfl

lemma cubeTree_all : cubeTree.all_polygons = cubePolys := by
  show cubeRoot.all_polygons = cubePolys
  simp [cubeRoot, nodeA, nodeB, nodeC, nodeD, nodeE, BSPNode.all_polygons_mk, optAll,
    cubePolys]

lemma cube_make_cube : make_cube ⟨0, 0, 0⟩ 10 = .ok cubePolys := by
  have hq0 : (⟨0 - 10 / 2, 0 - 10 / 2, 0 - 10 / 2⟩ : Vec3) = q0 := by norm_num [q0]
  have hq1 : (⟨0 + 10 / 2, 0 - 10 / 2, 0 - 10 / 2⟩ : Vec3) = q1 := by norm_num [q1]
  have hq2 : (⟨0 + 10 / 2, 0 + 10 / 2, 0 - 10 / 2⟩ : Vec3) = q2 := by norm_num [q2]
  have hq3 : (⟨0 - 10 / 2, 0 + 10 / 2, 0 - 10 / 2⟩ : Vec3) = q3 := by norm_num [q3]
  have hq4 : (⟨0 - 10 / 2, 0 - 10 / 2, 0 + 10 / 2⟩ : Vec3) = q4 := by norm_num [q4]
  have hq5 : (⟨0 + 10 / 2, 0 - 10 / 2, 0 + 10 / 2⟩ : Vec3) = q5 := by norm_num [q5]
  have hq6 : (⟨0 + 10 / 2, 0 + 10 / 2, 0 + 10 / 2⟩ : Vec3) = q6 := by norm_num [q6]
  have hq7 : (⟨0 - 10 / 2, 0 + 10 / 2, 0 + 10 / 2⟩ : Vec3) = q7 := by norm_num [q7]
  simp only [make_cube]
  rw [hq0, hq1, hq2, hq3, hq4, hq5, hq6, hq7]
  rfl

lemma dist_cf0 : distance cf0.centroid ⟨0, 0, 0⟩ = 5 := by
  rw [cf0_centroid]
  exact distance_eval ⟨0, 0, -5⟩ ⟨0, 0, 0⟩ 5 (by norm_num) (by norm_num)

lemma dist_cf1 : distance cf1.centroid ⟨0, 0, 0⟩ = 5 := by
  rw [cf1_centroid]
  exact distance_eval ⟨0, 0, 5⟩ ⟨0, 0, 0⟩ 5 (by norm_num) (by norm_num)

lemma dist_cf2 : distance cf2.centroid ⟨0, 0, 0⟩ = 5 := by
  rw [cf2_centroid]
  exact distance_eval ⟨0, -5, 0⟩ ⟨0, 0, 0⟩ 5 (by norm_num) (by norm_num)

lemma dist_cf3 : distance cf3.centroid ⟨0, 0, 0⟩ = 5 := by
  rw [cf3_centroid]
  exact distance_eval ⟨0, 5, 0⟩ ⟨0, 0, 0⟩ 5 (by norm_num) (by norm_num)

lemma dist_cf4 : distance cf4.centroid ⟨0, 0, 0⟩ = 5 := by
  rw [cf4_centroid]
  exact distance_eval ⟨5, 0, 0⟩ ⟨0, 0, 0⟩ 5 (by norm_num) (by norm_num)

lemma dist_cf5 : distance cf5.centroid ⟨0, 0, 0⟩ = 5 := by
  rw [cf5_centroid]
  exact distance_eval ⟨-5, 0, 0⟩ ⟨0, 0, 0⟩ 5 (by norm_num) (by norm_num)

lemma cube_expl20 : apply_explosion 6 cubeTree ⟨0, 0, 0⟩ 20 = some ⟨BSPNode.empty⟩ := by
  have hstep : cubeTree.all_polygons.filter
      (fun p => decide ((20 : ℝ) < distance p.centroid ⟨0, 0, 0⟩)) = [] := by
    rw [cubeTree_all]
    simp only [cubePolys, List.filter_cons, List.filter_nil]
    rw [show decide ((20 : ℝ) < distance cf0.centroid ⟨0, 0, 0⟩) = false from by
          rw [dist_cf0]; exact decide_eq_false (by norm_num),
        show decide ((20 : ℝ) < distance cf1.centroid ⟨0, 0, 0⟩) = false from by
          rw [dist_cf1]; exact decide_eq_false (by norm_num),
        show decide ((20 : ℝ) < distance cf2.centroid ⟨0, 0, 0⟩) = false from by
          rw [dist_cf2]; exact decide_eq_false (by norm_num),
        show decide ((20 : ℝ) < distance cf3.centroid ⟨0, 0, 0⟩) = false from by
          rw [dist_cf3]; exact decide_eq_false (by norm_num),
        show decide ((20 : ℝ) < distance cf4.centroid ⟨0, 0, 0⟩) = false from by
          rw [dist_cf4]; exact decide_eq_false (by norm_num),
        show decide ((20 : ℝ) < distance cf5.centroid ⟨0, 0, 0⟩) = false from by
          rw [dist_cf5]; exact decide_eq_false (by norm_num)]
    simp
  unfold apply_explosion
  rw [hstep]
  rfl

lemma cube_expl0 : apply_explosion 6 cubeTree ⟨0, 0, 0⟩ 0 = some cubeTree := by
  have hstep : cubeTree.all_polygons.filter
      (fun p => decide ((0 : ℝ) < distance p.centroid ⟨0, 0, 0⟩)) = cubePolys := by
    rw [cubeTree_all]
    simp only [cubePolys, List.filter_cons, List.filter_nil]
    rw [show decide ((0 : ℝ) < distance cf0.centroid ⟨0, 0, 0⟩) = true from by
          rw [dist_cf0]; exact decide_eq_true (by norm_num),
        show decide ((0 : ℝ) < distance cf1.centroid ⟨0, 0, 0⟩) = true from by
          rw [dist_cf1]; exact decide_eq_true (by norm_num),
        show decide ((0 : ℝ) < distance cf2.centroid ⟨0, 0, 0⟩) = true from by
          rw [dist_cf2]; exact decide_eq_true (by norm_num),
        show decide ((0 : ℝ) < distance cf3.centroid ⟨0, 0, 0⟩) = true from by
          rw [dist_cf3]; exact decide_eq_true (by norm_num),
        show decide ((0 : ℝ) < distance cf4.centroid ⟨0, 0, 0⟩) = true from by
          rw [dist_cf4]; exact decide_eq_true (by norm_num),
        show decide ((0 : ℝ) < distance cf5.centroid ⟨0, 0, 0⟩) = true from by
          rw [dist_cf5]; exact decide_eq_true (by norm_num)]
    simp
  unfold apply_explosion
  rw [hstep]
  exact cube_make

/-- C9: the example scenario.  `make_cube` at the origin with size 10 yields
6 faces; building stores all 6; an explosion of radius 20 at the center
empties the tree; an explosion of radius 0 keeps all 6 polygons. -/
theorem cube_scenario :
    make_cube ⟨0, 0, 0⟩ 10 = .ok cubePolys ∧
    cubePolys.length = 6 ∧
    BSPTree.make 6 cubePolys = some cubeTree ∧
    cubeTree.all_polygons.length = 6 ∧
    (∃ t20, apply_explosion 6 cubeTree ⟨0, 0, 0⟩ 20 = some t20 ∧
      t20.all_polygons.length = 0) ∧
    (∃ t0, apply_explosion 6 cubeTree ⟨0, 0, 0⟩ 0 = some t0 ∧
      t0.all_polygons.length = 6) := by
  refine ⟨cube_make_cube, rfl, cube_make, ?_, ⟨⟨BSPNode.empty⟩, cube_expl20, rfl⟩,
    ⟨cubeTree, cube_expl0, ?_⟩⟩
  · rw [cubeTree_all]
    rfl
  · rw [cubeTree_all]
    rfl

/-! Rebuilding a tree from its own traversal is a fixpoint (for
self-coplanar polygon sets): the key step is that the traversal is already
sorted into coplanar / front / back segments for the root plane. -/

lemma partition_of_sorted (pl : Plane) (L1 L2 L3 : List Polygon)
    (h1 : ∀ q ∈ L1, |pl.classify_point q.centroid| ≤ eps)
    (h2 : ∀ q ∈ L2, eps < pl.classify_point q.centroid)
    (h3 : ∀ q ∈ L3, pl.classify_point q.centroid < -eps) :
    partitionPolys pl (L1 ++ (L2 ++ L3)) = (L1, L2, L3) := by
  have hcop1 : ∀ q ∈ L1, copB pl q = true := fun q hq => decide_eq_true (h1 q hq)
  have hcop2 : ∀ q ∈ L2, copB pl q = false := by
    intro q hq
    apply decide_eq_false
    intro hle
    have ha := abs_le.mp hle
    have := h2 q hq
    linarith [ha.2]
  have hcop3 : ∀ q ∈ L3, copB pl q = false := by
    intro q hq
    apply decide_eq_false
    intro hle
    have ha := abs_le.mp hle
    have := h3 q hq
    linarith [ha.1]
  have hpos2 : ∀ q ∈ L2, posB pl q = true :=
    fun q hq => decide_eq_true (lt_trans eps_pos (h2 q hq))
  have hpos3 : ∀ q ∈ L3, posB pl q = false := by
    intro q hq
    apply decide_eq_false
    intro hlt
    have := h3 q hq
    have heps := eps_pos
    linarith
  rw [partitionPolys_eq_filters]
  have e1 : (L1 ++ (L2 ++ L3)).filter (copB pl) = L1 := by
    rw [List.filter_append, List.filter_append,
      List.filter_eq_self.mpr hcop1,
      List.filter_eq_nil_iff.mpr (fun a ha => by rw [hcop2 a ha]; simp),
      List.filter_eq_nil_iff.mpr (fun a ha => by rw [hcop3 a ha]; simp)]
    simp
  have e2 : (L1 ++ (L2 ++ L3)).filter (frontB pl) = L2 := by
    rw [List.filter_append, List.filter_append,
      List.filter_eq_nil_iff.mpr (fun a ha => by simp [frontB, hcop1 a ha]),
      List.filter_eq_self.mpr (fun a ha => by simp [frontB, hcop2 a ha, hpos2 a ha]),
      List.filter_eq_nil_iff.mpr (fun a ha => by simp [frontB, hpos3 a ha])]
    simp
  have e3 : (L1 ++ (L2 ++ L3)).filter (backB pl) = L3 := by
    rw [List.filter_append, List.filter_append,
      List.filter_eq_nil_iff.mpr (fun a ha => by simp [backB, hcop1 a ha]),
      List.filter_eq_nil_iff.mpr (fun a ha => by simp [backB, hpos2 a ha]),
      List.filter_eq_self.mpr (fun a ha => by simp [backB, hcop3 a ha, hpos3 a ha])]
    simp
  rw [e1, e2, e3]

lemma build_rebuild_fix : ∀ (fuel : Nat) (L : List Polygon) (t : BSPNode),
    (∀ p ∈ L, SelfCoplanar p) → BSPNode.build fuel BSPNode.empty L = some t →
    ∀ (fuel2 : Nat) (t2 : BSPNode),
      BSPNode.build fuel2 BSPNode.empty t.all_polygons = some t2 →
      t2.all_polygons = t.all_polygons := by
  intro fuel
  induction fuel with
  | zero =>
    intro L t hgood h fuel2 t2 h2
    cases L with
    | nil =>
      obtain rfl : BSPNode.empty = t := Option.some.inj h
      rw [BSPNode.all_polygons_empty] at h2 ⊢
      rw [BSPNode.build_nil] at h2
      obtain rfl : BSPNode.empty = t2 := Option.some.inj h2
      rfl
    | cons p rest => exact Option.noConfusion h
  | succ fuel ih =>
    intro L t hgood h fuel2 t2 h2
    cases L with
    | nil =>
      obtain rfl : BSPNode.empty = t := Option.some.inj h
      rw [BSPNode.all_polygons_empty] at h2 ⊢
      rw [BSPNode.build_nil] at h2
      obtain rfl : BSPNode.empty = t2 := Option.some.inj h2
      rfl
    | cons p0 rest =>
      have hSI := build_strongInv (fuel + 1) (p0 :: rest) t h
      obtain ⟨f, b, hf, hb, rfl⟩ := BSPNode.build_cons_inv fuel BSPNode.empty p0 rest t h
      have hgd : BSPNode.empty.plane.getD p0.plane = p0.plane := rfl
      rcases hp : partitionPolys p0.plane (p0 :: rest) with ⟨cop, fr, bk⟩
      rw [hgd, hp] at hf hb
      rw [hgd, hp] at hSI h2 ⊢
      simp only [BSPNode.polygons_empty, List.nil_append, BSPNode.front_empty,
        BSPNode.back_empty] at hSI hf hb h2 ⊢
      have hgood0 : |p0.plane.classify_point p0.centroid| ≤ eps :=
        hgood p0 (List.mem_cons_self p0 rest)
      have hcop : cop = p0 :: (partitionPolys p0.plane rest).1 := by
        have hstep : partitionPolys p0.plane (p0 :: rest) =
            (p0 :: (partitionPolys p0.plane rest).1,
             (partitionPolys p0.plane rest).2.1, (partitionPolys p0.plane rest).2.2) := by
          simp only [partitionPolys, if_pos hgood0]
        rw [hp] at hstep
        exact congrArg Prod.fst hstep
      unfold BSPNode.StrongInv at hSI
      obtain ⟨hS1, hSf, hSb⟩ := hSI
      obtain ⟨hScop, hSfront, hSback⟩ := hS1 p0.plane rfl
      have hall : (BSPNode.mk (some p0.plane) f b cop).all_polygons =
          cop ++ (optAll f ++ optAll b) := by
        rw [BSPNode.all_polygons_mk, List.append_assoc]
      have hpart2 : partitionPolys p0.plane (cop ++ (optAll f ++ optAll b)) =
          (cop, optAll f, optAll b) :=
        partition_of_sorted p0.plane cop (optAll f) (optAll b) hScop hSfront hSback
      rw [hall] at h2 ⊢
      rw [hcop] at h2 hpart2
      simp only [List.cons_append] at h2 hpart2
      cases fuel2 with
      | zero => exact Option.noConfusion h2
      | succ f2 =>
        obtain ⟨f2n, b2n, hf2, hb2, rfl⟩ := BSPNode.build_cons_inv f2 BSPNode.empty p0
          ((partitionPolys p0.plane rest).1 ++ (optAll f ++ optAll b)) t2 h2
        rw [hgd, hpart2] at hf2 hb2 ⊢
        simp only [BSPNode.polygons_empty, List.nil_append, BSPNode.front_empty,
          BSPNode.back_empty] at hf2 hb2 ⊢
        have haf : optAll f2n = optAll f := by
          rcases hf2 with ⟨hAe, rfl⟩ | ⟨hAne, tf2, htf2, rfl⟩
          · rw [hAe]
            rfl
          · rcases hf with ⟨hfe, rfl⟩ | ⟨hfne, tf, htf, rfl⟩
            · exact absurd optAll_none hAne
            · have hfr_good : ∀ pq ∈ fr, SelfCoplanar pq := by
                intro pq hq
                have hm : pq ∈ (partitionPolys p0.plane (p0 :: rest)).2.1 := by
                  rw [hp]
                  exact hq
                exact hgood pq ((mem_partition_front _ _ _).mp hm).1
              have hfix := ih fr tf hfr_good htf f2 tf2 htf2
              simp only [optAll_some]
              exact hfix
        have hab : optAll b2n = optAll b := by
          rcases hb2 with ⟨hBe, rfl⟩ | ⟨hBne, tb2, htb2, rfl⟩
          · rw [hBe]
            rfl
          · rcases hb with ⟨hbe, rfl⟩ | ⟨hbne, tb, htb, rfl⟩
            · exact absurd optAll_none hBne
            · have hbk_good : ∀ pq ∈ bk, SelfCoplanar pq := by
                intro pq hq
                have hm : pq ∈ (partitionPolys p0.plane (p0 :: rest)).2.2 := by
                  rw [hp]
                  exact hq
                exact hgood pq ((mem_partition_back _ _ _).mp hm).1
              have hfix := ih bk tb hbk_good htb f2 tb2 htb2
              simp only [optAll_some]
              exact hfix
        rw [BSPNode.all_polygons_mk, haf, hab, List.append_assoc, hcop,
          List.cons_append]

/-- C10: for polygon lists whose members are coplanar with their own
planes, the explosion edit is idempotent: applying it a second time with
the same point and radius leaves the traversal sequence unchanged —
rebuilding a tree from its own traversal is a fixpoint for the
survivors. -/
theorem apply_explosion_idempotent (polys : List Polygon) (P : Vec3) (R : ℝ)
    (fuel fuel1 fuel2 : Nat) (T T1 T2 : BSPTree)
    (hgood : ∀ p ∈ polys, SelfCoplanar p)
    (hT : BSPTree.make fuel polys = some T)
    (h1 : apply_explosion fuel1 T P R = some T1)
    (h2 : apply_explosion fuel2 T1 P R = some T2) :
    T2.all_polygons = T1.all_polygons := by
  have hTperm := BSPTree.make_all_perm fuel polys T hT
  have hgoodT : ∀ p ∈ T.all_polygons, SelfCoplanar p :=
    fun p hp => hgood p (hTperm.subset hp)
  have hgood1 : ∀ p ∈ T.all_polygons.filter
      (fun p => decide (R < distance p.centroid P)), SelfCoplanar p :=
    fun p hp => hgoodT p (List.mem_filter.mp hp).1
  have hb1 : BSPNode.build fuel1 BSPNode.empty (T.all_polygons.filter
      (fun p => decide (R < distance p.centroid P))) = some T1.root :=
    BSPTree.make_inv _ _ _ h1
  have h1perm := BSPTree.make_all_perm _ _ _ h1
  have hsat : ∀ p ∈ T1.all_polygons, decide (R < distance p.centroid P) = true :=
    fun p hp => (List.mem_filter.mp (h1perm.subset hp)).2
  have hfilter1 : T1.all_polygons.filter
      (fun p => decide (R < distance p.centroid P)) = T1.all_polygons :=
    List.filter_eq_self.mpr hsat
  have hb2 : BSPNode.build fuel2 BSPNode.empty T1.all_polygons = some T2.root := by
    have hm := BSPTree.make_inv _ _ _ h2
    rwa [hfilter1] at hm
  exact build_rebuild_fix fuel1 _ T1.root hgood1 hb1 fuel2 T2.root hb2

/-- C10 witness: the explosion on the one-triangle tree is idempotent at a
concrete point and radius. -/
theorem apply_explosion_idempotent_witness :
    triTree.all_polygons = triTree.all_polygons :=
  apply_explosion_idempotent [tri] ⟨1 / 3, 1 / 3, 10⟩ 1 1 1 1 triTree triTree triTree
    (by
      intro p hp
      rcases List.mem_cons.mp hp with rfl | hp2
      · exact tri_selfCoplanar
      · exact absurd hp2 (List.not_mem_nil p))
    make_tri expl_tri expl_tri

end







